import Mathlib

/-!
# gin_and_mongoDB: the trainer service of `main.go`

A shallow embedding of `main.go`: the two record types with their struct tags,
`initMongo`, and the four request handlers `getAllTrainers`, `getTrainerByName`,
`createTrainer` and `deleteAll`.

The handlers call three libraries.  Their behaviour is modelled as far as the
handlers observe it:

* `encoding/json` (used by `json.Unmarshal`, `c.BindJSON`, `c.JSON`): JSON values,
  the struct-tag lookup of `reflect.StructTag`, field-name resolution (exact key,
  then case-insensitive), encoding of nil slices as `null`;
* the MongoDB driver: documents as ordered key/value lists, the collection as the
  list of its documents in natural order, the default struct codec (key is the
  lower-cased field name unless a `bson` tag is present), and a driver error that
  any call may report;
* gin: a response is the status code together with the JSON body.

Go strings are modelled as Unicode text, Go `int` as a 64-bit signed integer.
Calls to `log` are left out, apart from `log.Fatal`, which ends the run; of the
output of `fmt` only the count printed by `deleteAll` is kept.  The handlers are
modelled from the point where gin calls them: routing is not modelled.
-/

namespace GinMongo

/-! ## JSON values -/

/-- JSON values.  Number literals are split into integer literals (`num`) and
literals with a fraction or an exponent (`frac`, kept as text): only the former can
be stored into a Go `int`. -/
inductive JSON where
  | null
  | bool (b : Bool)
  | num (n : Int)
  | frac (text : String)
  | str (s : String)
  | arr (items : List JSON)
  | obj (members : List (String × JSON))

/-- The keys of a JSON object, in order; no keys for any other value. -/
def JSON.keys : JSON → List String
  | .obj members => members.map Prod.fst
  | _ => []

/-- The value stored under a key of a JSON object (first occurrence). -/
def JSON.field (key : String) : JSON → Option JSON
  | .obj members => (members.find? fun kv => kv.1 == key).map Prod.snd
  | _ => none

/-- Whether a JSON value can not be decoded into a struct at all: it is neither an
object nor `null`. -/
def notStruct : JSON → Bool
  | .obj _ => false
  | .null => false
  | _ => true

/-- The bytes of a request body or of a file, as the JSON readers tell them apart:
no bytes at all; bytes that do not begin with a JSON value; exactly one JSON value
(white space aside); a JSON value followed by further bytes that are not white
space.  The last case separates `json.Unmarshal`, which rejects it, from
`json.Decoder`, which stops reading at the end of the value. -/
inductive Payload where
  | empty
  | invalid
  | json (v : JSON)
  | trailing (v : JSON)

/-! ## Go `int` -/

/-- The width of Go's `int` on the 64-bit targets. -/
def intBits : Nat := 64

/-- Whether an integer fits Go's `int`. -/
def fitsInt (n : Int) : Bool :=
  decide (-(2 : Int) ^ (intBits - 1) ≤ n) && decide (n < (2 : Int) ^ (intBits - 1))

/-- Whether an integer fits in 32 bits (`fitsIn32Bits` of the driver). -/
def fitsIn32Bits (n : Int) : Bool :=
  decide (-(2 : Int) ^ 31 ≤ n) && decide (n ≤ (2 : Int) ^ 31 - 1)

/-! ## Struct tags (`reflect.StructTag.Lookup`) -/

/-- The double quote character. -/
def dquote : Char := Char.ofNat 34

/-- The backslash character. -/
def bslash : Char := Char.ofNat 92

/-- Skip the leading spaces of a tag. -/
def skipSpaces : List Char → List Char
  | [] => []
  | c :: cs => if c = ' ' then skipSpaces cs else c :: cs

/-- A character that may occur in a tag key: above space, and none of colon,
double quote and DEL. -/
def isKeyChar (c : Char) : Bool :=
  decide (c.toNat > 32) && c != ':' && c != dquote && decide (c.toNat ≠ 127)

/-- Scan the key of a tag entry: the longest run of key characters and the rest. -/
def scanKey : List Char → List Char × List Char
  | [] => ([], [])
  | c :: cs =>
    if isKeyChar c then ((c :: (scanKey cs).1), (scanKey cs).2) else ([], c :: cs)

/-- Scan a quoted value, the opening quote already consumed: the raw text up to the
closing quote and the rest after it; `none` when the quote is never closed.  A
backslash takes the next character with it. -/
def scanQuoted : List Char → Option (List Char × List Char)
  | [] => none
  | c :: cs =>
    if c = dquote then some ([], cs)
    else if c = bslash then
      match cs with
      | [] => none
      | c2 :: cs2 => (scanQuoted cs2).map fun qr => (c :: c2 :: qr.1, qr.2)
    else (scanQuoted cs).map fun qr => (c :: qr.1, qr.2)

/-- Unquote the raw text of a tag value.  Text without a backslash or a line break
is its own value; escape sequences are not interpreted (no tag of `main.go` has
one) and are reported as a failure. -/
def unquote (raw : List Char) : Option (List Char) :=
  if raw.any (fun c => c == bslash || c == '\n') then none else some raw

/-- The loop of `StructTag.Lookup`, bounded by the length of the tag: every round
consumes at least one character. -/
def lookupLoop : Nat → List Char → List Char → Option (List Char)
  | 0, _, _ => none
  | fuel + 1, tag, key =>
    match skipSpaces tag with
    | [] => none
    | t =>
      match scanKey t with
      | ([], _) => none
      | (name, c1 :: c2 :: rest) =>
        if c1 = ':' ∧ c2 = dquote then
          match scanQuoted rest with
          | none => none
          | some (raw, rest2) =>
            if key = name then unquote raw else lookupLoop fuel rest2 key
        else none
      | (_, _) => none

/-- The value of `key` in a struct tag, `none` when the tag has no well-formed entry
for it (`reflect.StructTag.Lookup`). -/
def StructTag.lookup (tag : String) (key : String) : Option String :=
  (lookupLoop (tag.length + 1) tag.data key.data).map String.mk

/-! ## Struct fields as `encoding/json` and the driver see them -/

/-- How a struct field is read and written, by its Go type. -/
inductive Access (σ : Type) where
  | string (get : σ → String) (set : σ → String → σ)
  | int (get : σ → Int) (set : σ → Int → σ)

/-- A struct field: its Go name, its raw struct tag, and its accessors. -/
structure Field (σ : Type) where
  name : String
  tag : String
  access : Access σ

/-- The JSON key of a field (`typeFields` of `encoding/json`): the part of the `json`
tag before the first comma, the Go field name when there is no such tag or that part
is empty; `none` for a field tagged `json:"-"`, which is skipped. -/
def jsonKey (f : Field σ) : Option String :=
  match StructTag.lookup f.tag "json" with
  | none => some f.name
  | some v =>
    if v = "-" then none
    else
      let name := String.mk (v.data.takeWhile fun c => c != ',')
      if name = "" then some f.name else some name

/-- Fold one character for the case-insensitive key comparison (`foldRune`): the
least member of its case orbit.  Only the orbits that contain an ASCII letter are
modelled, which is exact for comparisons against ASCII field names: lower-case
ASCII letters, the Kelvin sign (with K) and the long s (with S). -/
def foldRune (c : Char) : Char :=
  if c.toNat = 0x212A then 'K'
  else if c.toNat = 0x17F then 'S'
  else if 97 ≤ c.toNat ∧ c.toNat ≤ 122 then Char.ofNat (c.toNat - 32)
  else c

/-- The folded form of a key (`foldName`). -/
def foldName (s : String) : List Char := s.data.map foldRune

/-- The field an object key is stored into: the first field whose JSON key is the
object key exactly, else the first one that equals it case-insensitively. -/
def resolveJSON (fields : List (Field σ)) (key : String) : Option (Field σ) :=
  match fields.find? fun f => jsonKey f == some key with
  | some f => some f
  | none =>
    fields.find? fun f =>
      match jsonKey f with
      | some k => foldName k == foldName key
      | none => false

/-- Store a JSON value into a field: `null` leaves the field alone, a string goes
into a string field, an integer literal within range into an `int` field; anything
else is an `UnmarshalTypeError` and leaves the field alone. -/
def storeJSON (a : Access σ) (s : σ) (v : JSON) : σ × Option String :=
  match v, a with
  | .null, _ => (s, none)
  | .str x, .string _ set => (set s x, none)
  | .num n, .int _ set =>
    if fitsInt n then (set s n, none) else (s, some "json: cannot unmarshal number into Go value of type int")
  | _, _ => (s, some "json: cannot unmarshal value into Go struct field")

/-- One member of an object during decoding: unknown keys are ignored, the first
error is kept and decoding goes on. -/
def unmarshalMember (fields : List (Field σ)) (st : σ × Option String) (kv : String × JSON) :
    σ × Option String :=
  match resolveJSON fields kv.1 with
  | none => st
  | some f =>
    let r := storeJSON f.access st.1 kv.2
    (r.1, st.2 <|> r.2)

/-- Decode a JSON value into a struct that already holds `s` (`json.Unmarshal` into
a struct pointer): the struct after decoding and the error returned, if any. -/
def unmarshalValue (fields : List (Field σ)) (s : σ) : JSON → σ × Option String
  | .null => (s, none)
  | .obj members => members.foldl (unmarshalMember fields) (s, none)
  | _ => (s, some "json: cannot unmarshal value into Go value of struct type")

/-- The call `json.Unmarshal(data, &s)`: the whole input must be one JSON value; no
input, input that does not begin with a value, and bytes after the value are
errors that leave the struct alone. -/
def unmarshal (fields : List (Field σ)) (s : σ) : Payload → σ × Option String
  | .empty => (s, some "unexpected end of JSON input")
  | .invalid => (s, some "invalid character looking for beginning of value")
  | .json v => unmarshalValue fields s v
  | .trailing _ => (s, some "invalid character after top-level value")

/-- The call `json.NewDecoder(r).Decode(&s)`: the first JSON value of the stream is
decoded and what follows it is not read; no input and input that does not begin
with a value are errors that leave the struct alone. -/
def decode (fields : List (Field σ)) (s : σ) : Payload → σ × Option String
  | .empty => (s, some "EOF")
  | .invalid => (s, some "invalid character looking for beginning of value")
  | .json v => unmarshalValue fields s v
  | .trailing v => unmarshalValue fields s v

/-- Encode one field value. -/
def encodeJSON (a : Access σ) (s : σ) : JSON :=
  match a with
  | .string get _ => .str (get s)
  | .int get _ => .num (get s)

/-- Encode a struct (`json.Marshal`): an object with one member per field that is
not skipped, in declaration order. -/
def marshal (fields : List (Field σ)) (s : σ) : JSON :=
  .obj (fields.filterMap fun f => (jsonKey f).map fun k => (k, encodeJSON f.access s))

/-! ## The records of `main.go` -/

/-- Trainer represent pokemon trainer. -/
structure Trainer where
  Name : String
  Age : Int
  City : String
deriving DecidableEq, Repr

/-- Credential for mongoDB atlas credential. -/
structure Credential where
  User : String
  Password : String
  Host : String
deriving DecidableEq, Repr

/-- The zero value of `Trainer` (`var newTrainer Trainer`). -/
def Trainer.zero : Trainer := ⟨"", 0, ""⟩

/-- The zero value of `Credential` (`var c Credential`). -/
def Credential.zero : Credential := ⟨"", "", ""⟩

/-- The field `Name string` with its tag. -/
def Trainer.nameField : Field Trainer :=
  ⟨"Name", "json:\"name\"", .string (fun t => t.Name) (fun t v => { t with Name := v })⟩

/-- The field `Age int` with its tag. -/
def Trainer.ageField : Field Trainer :=
  ⟨"Age", "json:\"age\"", .int (fun t => t.Age) (fun t v => { t with Age := v })⟩

/-- The field `City string` with its tag. -/
def Trainer.cityField : Field Trainer :=
  ⟨"City", "json:\"city\"", .string (fun t => t.City) (fun t v => { t with City := v })⟩

/-- The fields of `Trainer`, in declaration order. -/
def Trainer.fields : List (Field Trainer) :=
  [Trainer.nameField, Trainer.ageField, Trainer.cityField]

/-- The field `User string` with its tag, which the source writes with two colons. -/
def Credential.userField : Field Credential :=
  ⟨"User", "json::\"user\"", .string (fun c => c.User) (fun c v => { c with User := v })⟩

/-- The field `Password string` with its tag. -/
def Credential.passwordField : Field Credential :=
  ⟨"Password", "json:\"password\"",
    .string (fun c => c.Password) (fun c v => { c with Password := v })⟩

/-- The field `Host string` with its tag. -/
def Credential.hostField : Field Credential :=
  ⟨"Host", "json:\"host\"", .string (fun c => c.Host) (fun c v => { c with Host := v })⟩

/-- The fields of `Credential`, in declaration order. -/
def Credential.fields : List (Field Credential) :=
  [Credential.userField, Credential.passwordField, Credential.hostField]

/-! ## Documents and the driver's struct codec -/

/-- The values of a document as far as the struct codec tells them apart: strings,
32-bit and 64-bit integers, and `other` for every value that neither a string field
nor an `int` field accepts (an embedded document, an array, ...). -/
inductive BVal where
  | str (s : String)
  | int32 (n : Int)
  | int64 (n : Int)
  | other
deriving DecidableEq, Repr

/-- A document: its elements in order.  The `_id` element that the store adds is left
out: no field of `Trainer` is keyed `_id`, so the codec skips it. -/
abbrev Doc := List (String × BVal)

/-- The collection `pokemon.trainers`: its documents in natural order. -/
abbrev Collection := List Doc

/-- Lower-case an ASCII letter (`strings.ToLower` on the ASCII range). -/
def lowerRune (c : Char) : Char :=
  if 65 ≤ c.toNat ∧ c.toNat ≤ 90 then Char.ofNat (c.toNat + 32) else c

/-- Lower-case a name. -/
def toLower (s : String) : String := String.mk (s.data.map lowerRune)

/-- The document key of a field (`DefaultStructTagParser`): the lower-cased field
name, replaced by the first part of the `bson` tag when that is not empty.  When
there is no `bson` tag, a non-empty raw tag without a colon is taken as the tag.
`none` for a field tagged `-`, which is skipped. -/
def bsonKey (f : Field σ) : Option String :=
  let tag :=
    match StructTag.lookup f.tag "bson" with
    | some v => v
    | none => if !f.tag.data.contains ':' && decide (f.tag.length > 0) then f.tag else ""
  if tag = "-" then none
  else
    let head := String.mk (tag.data.takeWhile fun c => c != ',')
    if head = "" then some (toLower f.name) else some head

/-- Encode one field value for a document: an `int` is written as a 32-bit integer
when it fits and as a 64-bit integer otherwise. -/
def encodeBSON (a : Access σ) (s : σ) : BVal :=
  match a with
  | .string get _ => .str (get s)
  | .int get _ => if fitsIn32Bits (get s) then .int32 (get s) else .int64 (get s)

/-- Encode a struct as a document (`bson.Marshal` as used by `InsertOne`). -/
def marshalDoc (fields : List (Field σ)) (s : σ) : Doc :=
  fields.filterMap fun f => (bsonKey f).map fun k => (k, encodeBSON f.access s)

/-- The field a document key is decoded into: the field with that key, else the
field keyed by the lower-cased document key. -/
def resolveBSON (fields : List (Field σ)) (key : String) : Option (Field σ) :=
  match fields.find? fun f => bsonKey f == some key with
  | some f => some f
  | none => fields.find? fun f => bsonKey f == some (toLower key)

/-- Decode a document value into a field; a value of the wrong kind, or an integer
that overflows `int`, is an error. -/
def storeBSON (a : Access σ) (s : σ) (v : BVal) : Except String σ :=
  match v, a with
  | .str x, .string _ set => .ok (set s x)
  | .int32 n, .int _ set => .ok (set s n)
  | .int64 n, .int _ set => if fitsInt n then .ok (set s n) else .error "overflows int"
  | _, _ => .error "cannot decode value into field"

/-- Decode a document into a struct that holds `s` (`StructCodec.DecodeValue`):
elements are taken in order, unknown keys are skipped, the first error ends the
decoding. -/
def decodeDoc (fields : List (Field σ)) (s : σ) : Doc → Except String σ
  | [] => .ok s
  | (k, v) :: rest =>
    match resolveBSON fields k with
    | none => decodeDoc fields s rest
    | some f =>
      match storeBSON f.access s v with
      | .error e => .error e
      | .ok s2 => decodeDoc fields s2 rest

/-- Whether a document matches the filter `bson.D{{key, value}}` with a string
value: its element `key` is that string. -/
def matchesFilter (key : String) (value : String) (d : Doc) : Bool :=
  (d.find? fun kv => kv.1 == key).map Prod.snd == some (BVal.str value)

/-! ## The collection operations

Every call takes the error the driver reports for it, if any (`none`: the call
succeeds). -/

/-- A cursor as the handler uses it: the documents `Next` delivers, and the error
`Err` reports once `Next` has returned false. -/
structure Cursor where
  batch : List Doc
  err : Option String

/-- The call `Find` with the filter `bson.D{{}}`, taken as the comment above the
call describes it (it matches all documents): a query error, or a cursor over the
whole collection.  A cursor failure `(k, e)` makes the cursor stop after `k` documents
with error `e`. -/
def Collection.find (coll : Collection) (queryErr : Option String)
    (cursorErr : Option (Nat × String)) : Except String Cursor :=
  match queryErr with
  | some e => .error e
  | none =>
    match cursorErr with
    | none => .ok ⟨coll, none⟩
    | some (k, e) => .ok ⟨coll.take k, some e⟩

/-- The message of `mongo.ErrNoDocuments`. -/
def errNoDocuments : String := "mongo: no documents in result"

/-- The call `FindOne(filter).Decode(&result)` with the filter `{key: value}`: the
error of the query, `ErrNoDocuments` when no document matches, else the first
matching document decoded into `result`. -/
def Collection.findOneDecode (coll : Collection) (fields : List (Field σ)) (result : σ)
    (key value : String) (queryErr : Option String) : Except String σ :=
  match queryErr with
  | some e => .error e
  | none =>
    match coll.find? (matchesFilter key value) with
    | none => .error errNoDocuments
    | some d => decodeDoc fields result d

/-- The call `InsertOne`: an error leaves the collection as it is, success appends
the document. -/
def Collection.insertOne (coll : Collection) (d : Doc) (insertErr : Option String) :
    Except String Collection :=
  match insertErr with
  | some e => .error e
  | none => .ok (coll ++ [d])

/-- The call `DeleteMany` with the filter `bson.D{{}}`, taken as matching all
documents like the one of `Find`: an error leaves the collection as it is, success
empties it and reports how many documents were deleted. -/
def Collection.deleteMany (coll : Collection) (deleteErr : Option String) :
    Except String (Collection × Nat) :=
  match deleteErr with
  | some e => .error e
  | none => .ok ([], coll.length)

/-! ## Responses -/

/-- The status `http.StatusOK`. -/
def StatusOK : Nat := 200

/-- The status `http.StatusBadRequest`. -/
def StatusBadRequest : Nat := 400

/-- What `c.JSON(status, body)` sends: the status code and the JSON body. -/
structure Response where
  status : Nat
  body : JSON

/-- What a handler run ends in: a response, or the end of the process
(`log.Fatal`). -/
inductive Outcome where
  | response (r : Response)
  | fatal (msg : String)

/-- The body built from a `gin.H` map.  The encoder emits map entries in key order;
every map of `main.go` is written down in that order already. -/
def ginH (entries : List (String × JSON)) : JSON := .obj entries

/-- The error envelope of the handlers for a driver error. -/
def mongoError (e : String) : Response :=
  ⟨StatusBadRequest, ginH [("code", .num StatusBadRequest), ("message", .str ("[MongoBD] " ++ e))]⟩

/-! ## `initMongo` -/

/-- How start-up ends: the process is ended by `log.Fatal`, or a client connected
with the given URI is returned. -/
inductive Startup where
  | fatal (msg : String)
  | client (uri : String)
deriving DecidableEq, Repr

/-- The URI `fmt.Sprintf("mongodb+srv://%s:%s@%s", c.User, c.Password, c.Host)`. -/
def mongoURI (c : Credential) : String :=
  "mongodb+srv://" ++ c.User ++ ":" ++ c.Password ++ "@" ++ c.Host

/-- The call `json.Unmarshal(file, &c)` of `initMongo` on the zero credential; the
error it returns is dropped. -/
def loadCredential (file : Payload) : Credential :=
  (unmarshal Credential.fields Credential.zero file).1

/-- The second half of `initMongo`: connect with the URI, then ping; either error is
fatal.  The driver's answer to `Connect` depends on the URI it is given. -/
def connectAndPing (uri : String) (connect : String → Option String)
    (ping : Option String) : Startup :=
  match connect uri with
  | some e => .fatal e
  | none =>
    match ping with
    | some e => .fatal e
    | none => .client uri

/-- The function `initMongo`: `file` is what `ioutil.ReadFile` returns. -/
def initMongo (file : Except String Payload) (connect : String → Option String)
    (ping : Option String) : Startup :=
  match file with
  | .error e => .fatal ("File error: " ++ e)
  | .ok content => connectAndPing (mongoURI (loadCredential content)) connect ping

/-! ## The handlers -/

/-- Go's `append` on a slice that may be nil. -/
def goAppend : Option (List α) → α → Option (List α)
  | none, x => some [x]
  | some xs, x => some (xs ++ [x])

/-- The cursor loop of `getAllTrainers`.  Every round declares a fresh variable
`elem` (a new cell at the end of the heap), decodes the document into it and appends
its address to `results`; a decode error ends the process. -/
def cursorLoop : List Doc → List Trainer → Option (List Nat) →
    Except String (List Trainer × Option (List Nat))
  | [], heap, results => .ok (heap, results)
  | d :: ds, heap, results =>
    match decodeDoc Trainer.fields Trainer.zero d with
    | .error e => .error e
    | .ok elem => cursorLoop ds (heap ++ [elem]) (goAppend results heap.length)

/-- Encode a slice of pointers to trainers: `null` for the nil slice, else the array
of the encoded cells (`null` for a dangling address). -/
def marshalPointers (heap : List Trainer) : Option (List Nat) → JSON
  | none => .null
  | some ps =>
    .arr (ps.map fun p =>
      match heap[p]? with
      | some t => marshal Trainer.fields t
      | none => .null)

/-- The handler `getAllTrainers`. -/
def getAllTrainers (coll : Collection) (queryErr : Option String)
    (cursorErr : Option (Nat × String)) : Outcome :=
  match coll.find queryErr cursorErr with
  | .error e => .response (mongoError e)
  | .ok cur =>
    match cursorLoop cur.batch [] none with
    | .error e => .fatal e
    | .ok (heap, results) =>
      match cur.err with
      | some e =>
        .response ⟨StatusBadRequest,
          ginH [("CODE", .num StatusBadRequest), ("message", .str ("[MongoBD] " ++ e))]⟩
      | none =>
        .response ⟨StatusOK,
          ginH [("code", .num StatusOK), ("trainers", marshalPointers heap results)]⟩

/-- The handler `getTrainerByName`; `tName` is `c.Param("name")`. -/
def getTrainerByName (tName : String) (coll : Collection) (queryErr : Option String) :
    Response :=
  match coll.findOneDecode Trainer.fields Trainer.zero "name" tName queryErr with
  | .error e => mongoError e
  | .ok result =>
    ⟨StatusOK, ginH [("code", .num StatusOK), ("trainer", marshal Trainer.fields result)]⟩

/-- The call `c.BindJSON(&newTrainer)`: gin reads the request body with a
`json.Decoder` into the zero trainer; `Trainer` has no `binding` tags, so the
validation that follows accepts every value.  The trainer after the call, and the
error. -/
def bindJSON (body : Payload) : Trainer × Option String :=
  decode Trainer.fields Trainer.zero body

/-- The handler `createTrainer`: the response and the collection afterwards. -/
def createTrainer (body : Payload) (coll : Collection) (insertErr : Option String) :
    Response × Collection :=
  match bindJSON body with
  | (_, some _) =>
    (⟨StatusBadRequest,
      ginH [("code", .num StatusBadRequest), ("message", .str "binding json error")]⟩, coll)
  | (newTrainer, none) =>
    match coll.insertOne (marshalDoc Trainer.fields newTrainer) insertErr with
    | .error e => (mongoError e, coll)
    | .ok coll2 =>
      (⟨StatusOK,
        ginH [("code", .num StatusOK), ("trainer", marshal Trainer.fields newTrainer)]⟩, coll2)

/-- What `deleteAll` leaves behind: the response, the collection afterwards, and the
count printed by `fmt.Printf` (nothing is printed on an error). -/
structure Deleted where
  response : Response
  coll : Collection
  printed : Option Nat

/-- The handler `deleteAll`. -/
def deleteAll (coll : Collection) (deleteErr : Option String) : Deleted :=
  match coll.deleteMany deleteErr with
  | .error e => ⟨mongoError e, coll, none⟩
  | .ok (coll2, deletedCount) =>
    ⟨⟨StatusOK, ginH [("code", .num StatusOK), ("message", .str "all trainers deleted")]⟩,
      coll2, some deletedCount⟩

/-! ## Lemmas on lists -/

theorem perm_two {α : Type} {a b : α} {l : List α} (h : l.Perm [a, b]) :
    l = [a, b] ∨ l = [b, a] := by
  have hl := h.length_eq
  match l, hl with
  | [x, y], _ =>
    have hx : x ∈ [a, b] := h.subset (by simp)
    simp only [List.mem_cons, List.mem_singleton, List.not_mem_nil, or_false] at hx
    rcases hx with rfl | rfl
    · have h2 : [y].Perm [b] := h.cons_inv
      simp [List.perm_singleton.1 h2]
    · have h2 : [y].Perm [a] := (h.trans (List.Perm.swap _ _ _)).cons_inv
      simp [List.perm_singleton.1 h2]

theorem perm_three {α : Type} {a b c : α} {l : List α} (h : l.Perm [a, b, c]) :
    l = [a, b, c] ∨ l = [a, c, b] ∨ l = [b, a, c] ∨ l = [b, c, a] ∨ l = [c, a, b] ∨
      l = [c, b, a] := by
  have hl := h.length_eq
  match l, hl with
  | [x, y, z], _ =>
    have hx : x ∈ [a, b, c] := h.subset (by simp)
    simp only [List.mem_cons, List.mem_singleton, List.not_mem_nil, or_false] at hx
    rcases hx with rfl | rfl | rfl
    · have h2 : [y, z].Perm [b, c] := h.cons_inv
      rcases perm_two h2 with e | e <;> simp [e]
    · have h2 : [y, z].Perm [a, c] := (h.trans (List.Perm.swap _ _ _)).cons_inv
      rcases perm_two h2 with e | e <;> simp [e]
    · have h3 : [a, b, x].Perm [x, a, b] := @List.perm_append_comm _ [a, b] [x]
      have h2 : [y, z].Perm [a, b] := (h.trans h3).cons_inv
      rcases perm_two h2 with e | e <;> simp [e]

/-! ## The JSON form of the records -/

theorem marshal_trainer (t : Trainer) :
    marshal Trainer.fields t =
      .obj [("name", .str t.Name), ("age", .num t.Age), ("city", .str t.City)] := rfl

theorem member_name (st : Trainer × Option String) (n : String) :
    unmarshalMember Trainer.fields st ("name", .str n) = ({ st.1 with Name := n }, st.2) := by
  have e : resolveJSON Trainer.fields "name" = some Trainer.nameField := rfl
  cases h : st.2 <;> simp [unmarshalMember, e, storeJSON, Trainer.nameField, h]

theorem member_age (st : Trainer × Option String) (a : Int) (ha : fitsInt a = true) :
    unmarshalMember Trainer.fields st ("age", .num a) = ({ st.1 with Age := a }, st.2) := by
  have e : resolveJSON Trainer.fields "age" = some Trainer.ageField := rfl
  cases h : st.2 <;> simp [unmarshalMember, e, storeJSON, Trainer.ageField, h, ha]

theorem member_city (st : Trainer × Option String) (c : String) :
    unmarshalMember Trainer.fields st ("city", .str c) = ({ st.1 with City := c }, st.2) := by
  have e : resolveJSON Trainer.fields "city" = some Trainer.cityField := rfl
  cases h : st.2 <;> simp [unmarshalMember, e, storeJSON, Trainer.cityField, h]

/-- Decoding an object that has exactly the members `name`, `age`, `city`, in any
order, into any trainer gives the trainer with these values, without an error. -/
theorem unmarshal_trainer_members (s : Trainer) (n c : String) (a : Int)
    (ha : fitsInt a = true) (members : List (String × JSON))
    (h : members.Perm [("name", .str n), ("age", .num a), ("city", .str c)]) :
    unmarshalValue Trainer.fields s (.obj members) = (⟨n, a, c⟩, none) := by
  rcases perm_three h with rfl | rfl | rfl | rfl | rfl | rfl <;>
    simp [unmarshalValue, member_name, member_age, member_city, ha]

theorem member_user (st : Credential × Option String) (u : String) :
    unmarshalMember Credential.fields st ("user", .str u) = ({ st.1 with User := u }, st.2) := by
  have e : resolveJSON Credential.fields "user" = some Credential.userField := rfl
  cases h : st.2 <;> simp [unmarshalMember, e, storeJSON, Credential.userField, h]

theorem member_password (st : Credential × Option String) (p : String) :
    unmarshalMember Credential.fields st ("password", .str p) =
      ({ st.1 with Password := p }, st.2) := by
  have e : resolveJSON Credential.fields "password" = some Credential.passwordField := rfl
  cases h : st.2 <;> simp [unmarshalMember, e, storeJSON, Credential.passwordField, h]

theorem member_host (st : Credential × Option String) (x : String) :
    unmarshalMember Credential.fields st ("host", .str x) = ({ st.1 with Host := x }, st.2) := by
  have e : resolveJSON Credential.fields "host" = some Credential.hostField := rfl
  cases h : st.2 <;> simp [unmarshalMember, e, storeJSON, Credential.hostField, h]

/-- Decoding an object that has exactly the members `user`, `password`, `host`, in
any order, gives the credential with these values, without an error. -/
theorem unmarshal_credential_members (s : Credential) (u p x : String)
    (members : List (String × JSON))
    (h : members.Perm [("user", .str u), ("password", .str p), ("host", .str x)]) :
    unmarshalValue Credential.fields s (.obj members) = (⟨u, p, x⟩, none) := by
  rcases perm_three h with rfl | rfl | rfl | rfl | rfl | rfl <;>
    simp [unmarshalValue, member_user, member_password, member_host]

/-- A valid body binds to the trainer it describes. -/
theorem bindJSON_members (n c : String) (a : Int) (ha : fitsInt a = true)
    (members : List (String × JSON))
    (h : members.Perm [("name", .str n), ("age", .num a), ("city", .str c)]) :
    bindJSON (.json (.obj members)) = (⟨n, a, c⟩, none) :=
  unmarshal_trainer_members Trainer.zero n c a ha members h

/-- What `createTrainer` does with a body that binds to `t` without an error. -/
theorem createTrainer_of_bind (body : Payload) (t : Trainer) (coll : Collection)
    (insertErr : Option String) (h : bindJSON body = (t, none)) :
    createTrainer body coll insertErr =
      match insertErr with
      | some e => (mongoError e, coll)
      | none =>
        (⟨StatusOK, ginH [("code", .num StatusOK), ("trainer", marshal Trainer.fields t)]⟩,
          coll ++ [marshalDoc Trainer.fields t]) := by
  cases insertErr <;> simp [createTrainer, h, Collection.insertOne]


/-- Bytes after a valid body do not stop the binding: the decoder has read its value
and the trainer is inserted and echoed as for the body alone. -/
theorem createTrainer_trailing_bytes (coll : Collection) (n c : String) (a : Int)
    (members : List (String × JSON)) (ha : fitsInt a = true)
    (hbody : members.Perm [("name", .str n), ("age", .num a), ("city", .str c)]) :
    createTrainer (.trailing (.obj members)) coll none =
      (⟨200, .obj [("code", .num 200),
          ("trainer", .obj [("name", .str n), ("age", .num a), ("city", .str c)])]⟩,
        coll ++ [marshalDoc Trainer.fields ⟨n, a, c⟩]) := by
  have hb : bindJSON (.trailing (.obj members)) = (⟨n, a, c⟩, none) :=
    unmarshal_trainer_members Trainer.zero n c a ha members hbody
  rw [createTrainer_of_bind _ ⟨n, a, c⟩ coll none hb]
  rfl

/-- The same bytes in the configuration file are rejected by `json.Unmarshal`, and
the credential stays the zero value. -/
theorem loadCredential_trailing_bytes (v : JSON) :
    loadCredential (.trailing v) = Credential.zero := rfl

/-! ## The document form of a trainer -/

theorem marshalDoc_trainer (t : Trainer) :
    marshalDoc Trainer.fields t =
      [("name", .str t.Name),
        ("age", if fitsIn32Bits t.Age then .int32 t.Age else .int64 t.Age),
        ("city", .str t.City)] := rfl

/-- Decoding the document written for a trainer gives the trainer back. -/
theorem decodeDoc_marshalDoc (s t : Trainer) (ha : fitsInt t.Age = true) :
    decodeDoc Trainer.fields s (marshalDoc Trainer.fields t) = .ok t := by
  have e1 : resolveBSON Trainer.fields "name" = some Trainer.nameField := rfl
  have e2 : resolveBSON Trainer.fields "age" = some Trainer.ageField := rfl
  have e3 : resolveBSON Trainer.fields "city" = some Trainer.cityField := rfl
  rw [marshalDoc_trainer]
  by_cases h32 : fitsIn32Bits t.Age = true <;>
    simp [decodeDoc, e1, e2, e3, storeBSON, Trainer.nameField, Trainer.ageField,
      Trainer.cityField, h32, ha]

/-- The document written for a trainer matches the filter on its own name. -/
theorem matchesFilter_marshalDoc (t : Trainer) :
    matchesFilter "name" t.Name (marshalDoc Trainer.fields t) = true := by
  simp [marshalDoc_trainer, matchesFilter]

/-- On a collection without a match, `FindOne` after an insert finds the inserted
document if it matches. -/
theorem find_append_of_no_match (coll : Collection) (d : Doc) (p : Doc → Bool)
    (hno : ∀ x ∈ coll, p x = false) (hd : p d = true) :
    (coll ++ [d]).find? p = some d := by
  induction coll with
  | nil => simp [List.find?, hd]
  | cons x xs ih =>
    have hx : p x = false := hno x (by simp)
    have hxs : ∀ y ∈ xs, p y = false := fun y hy => hno y (by simp [hy])
    simp [List.find?, hx, ih hxs]

theorem find_of_no_match (coll : Collection) (p : Doc → Bool)
    (hno : ∀ x ∈ coll, p x = false) : coll.find? p = none := by
  induction coll with
  | nil => rfl
  | cons x xs ih =>
    have hx : p x = false := hno x (by simp)
    have hxs : ∀ y ∈ xs, p y = false := fun y hy => hno y (by simp [hy])
    simp [List.find?, hx, ih hxs]

/-! ## The cursor loop -/

theorem foldl_goAppend_some (xs ps : List Nat) :
    ps.foldl goAppend (some xs) = some (xs ++ ps) := by
  induction ps generalizing xs with
  | nil => simp
  | cons p ps ih => simp [List.foldl, goAppend, ih]

theorem foldl_goAppend_none (ps : List Nat) :
    ps.foldl goAppend none = if ps = [] then none else some ps := by
  cases ps with
  | nil => rfl
  | cons p ps => simp [List.foldl, goAppend, foldl_goAppend_some]

/-- When every document decodes, the loop ends with one new cell per document, in
order, and with the addresses of these cells appended to `results`. -/
theorem cursorLoop_ok (ds : List Doc) (ts heap : List Trainer) (results : Option (List Nat))
    (h : List.Forall₂ (fun d t => decodeDoc Trainer.fields Trainer.zero d = .ok t) ds ts) :
    cursorLoop ds heap results =
      .ok (heap ++ ts, (List.range' heap.length ts.length).foldl goAppend results) := by
  induction h generalizing heap results with
  | nil => simp [cursorLoop]
  | cons hd _ ih =>
    simp [cursorLoop, hd, ih, List.range'_succ, List.foldl]

/-- Reading the cells `k, k+1, ...` of a heap whose cells from `k` on are `ts`. -/
theorem map_range_get (f : Option Trainer → JSON) (pre ts : List Trainer) :
    (List.range' pre.length ts.length).map (fun p => f ((pre ++ ts)[p]?)) =
      ts.map fun t => f (some t) := by
  induction ts generalizing pre with
  | nil => simp
  | cons t ts ih =>
    have h := ih (pre ++ [t])
    simp only [List.length_append, List.length_singleton, List.append_assoc,
      List.singleton_append] at h
    have h0 : (pre ++ t :: ts)[pre.length]? = some t := by
      rw [List.getElem?_append_right (Nat.le_refl _)]
      simp
    simp only [List.length_cons, List.range'_succ, List.map_cons, h0]
    rw [h]

/-- The encoding of the result slice after the loop has run from the empty state. -/
theorem marshalPointers_range (ts : List Trainer) :
    marshalPointers ts ((List.range' 0 ts.length).foldl goAppend none) =
      match ts with
      | [] => .null
      | _ :: _ => .arr (ts.map (marshal Trainer.fields)) := by
  cases ts with
  | nil => rfl
  | cons t ts =>
    have h := map_range_get
      (fun o => match o with
        | some t => marshal Trainer.fields t
        | none => JSON.null) [] (t :: ts)
    simp only [List.length_nil, List.nil_append] at h
    rw [foldl_goAppend_none]
    simp only [marshalPointers]
    simpa using h


/-! ## The claims -/

/-- C1, as stated, fails.  With a trainer named Ash already stored, a successful
POST of another Ash followed by GET /trainer/Ash answers 200 with the older
document, whose age and city differ from the posted ones; and after a successful
POST the GET answers 400 when the find-one query reports a driver error. -/
theorem createTrainer_getTrainerByName_not_roundtrip :
    (createTrainer
        (.json (.obj [("name", .str "Ash"), ("age", .num 11), ("city", .str "Viridian City")]))
        [[("name", .str "Ash"), ("age", .int32 10), ("city", .str "Pallet Town")]] none).1.status
        = 200 ∧
      getTrainerByName "Ash"
        (createTrainer
          (.json (.obj [("name", .str "Ash"), ("age", .num 11), ("city", .str "Viridian City")]))
          [[("name", .str "Ash"), ("age", .int32 10), ("city", .str "Pallet Town")]] none).2 none
        = ⟨200, .obj [("code", .num 200),
            ("trainer",
              .obj [("name", .str "Ash"), ("age", .num 10), ("city", .str "Pallet Town")])]⟩ ∧
      JSON.obj [("name", .str "Ash"), ("age", .num 10), ("city", .str "Pallet Town")] ≠
        marshal Trainer.fields ⟨"Ash", 11, "Viridian City"⟩ ∧
      (getTrainerByName "Ash"
        (createTrainer
          (.json (.obj [("name", .str "Ash"), ("age", .num 11), ("city", .str "Viridian City")]))
          [] none).2 (some "connection reset")).status = 400 := by
  refine ⟨rfl, rfl, ?_, rfl⟩
  simp [marshal_trainer]

/-- C1, amended: for every collection in which no document is matched by the name
filter for `t.Name`, and every trainer `t` whose age is a Go `int`, a POST whose
body has exactly the members `name`, `age`, `city` of `t` (in any order) and whose
insert reports no error answers 200, and a GET for `t.Name` served next, whose
find-one query reports no error, answers 200 with `t`'s name, age and city under
the `trainer` key. -/
theorem createTrainer_getTrainerByName_roundtrip (coll : Collection) (t : Trainer)
    (members : List (String × JSON)) (hage : fitsInt t.Age = true)
    (hbody : members.Perm [("name", .str t.Name), ("age", .num t.Age), ("city", .str t.City)])
    (hfresh : ∀ d ∈ coll, matchesFilter "name" t.Name d = false) :
    (createTrainer (.json (.obj members)) coll none).1.status = StatusOK ∧
      getTrainerByName t.Name (createTrainer (.json (.obj members)) coll none).2 none =
        ⟨StatusOK, ginH [("code", .num StatusOK),
          ("trainer",
            .obj [("name", .str t.Name), ("age", .num t.Age), ("city", .str t.City)])]⟩ := by
  have hb : bindJSON (.json (.obj members)) = (t, none) :=
    bindJSON_members t.Name t.City t.Age hage members hbody
  rw [createTrainer_of_bind _ t coll none hb]
  refine ⟨rfl, ?_⟩
  simp only [getTrainerByName, Collection.findOneDecode]
  rw [find_append_of_no_match coll _ _ hfresh (matchesFilter_marshalDoc t)]
  simp only [decodeDoc_marshalDoc Trainer.zero t hage, marshal_trainer]

/-- C1, amended, at a concrete input: Misty is posted to a collection that holds
Ash and is then fetched by name. -/
theorem createTrainer_getTrainerByName_roundtrip_witness :
    (fitsInt (12 : Int) = true ∧
      [("city", JSON.str "Cerulean City"), ("name", JSON.str "Misty"), ("age", JSON.num 12)].Perm
        [("name", .str "Misty"), ("age", .num 12), ("city", .str "Cerulean City")] ∧
      ∀ d ∈ ([[("name", .str "Ash"), ("age", .int32 10), ("city", .str "Pallet Town")]] :
          Collection), matchesFilter "name" "Misty" d = false) ∧
    ((createTrainer
        (.json (.obj [("city", .str "Cerulean City"), ("name", .str "Misty"), ("age", .num 12)]))
        [[("name", .str "Ash"), ("age", .int32 10), ("city", .str "Pallet Town")]] none).1.status
        = StatusOK ∧
      getTrainerByName "Misty"
        (createTrainer
          (.json (.obj [("city", .str "Cerulean City"), ("name", .str "Misty"), ("age", .num 12)]))
          [[("name", .str "Ash"), ("age", .int32 10), ("city", .str "Pallet Town")]] none).2 none =
        ⟨StatusOK, ginH [("code", .num StatusOK),
          ("trainer",
            .obj [("name", .str "Misty"), ("age", .num 12), ("city", .str "Cerulean City")])]⟩) :=
  ⟨⟨by decide,
      @List.perm_append_comm _ [("city", JSON.str "Cerulean City")]
        [("name", JSON.str "Misty"), ("age", JSON.num 12)],
      by decide⟩,
    createTrainer_getTrainerByName_roundtrip
      [[("name", .str "Ash"), ("age", .int32 10), ("city", .str "Pallet Town")]]
      ⟨"Misty", 12, "Cerulean City"⟩
      [("city", .str "Cerulean City"), ("name", .str "Misty"), ("age", .num 12)]
      (by decide)
      (@List.perm_append_comm _ [("city", JSON.str "Cerulean City")]
        [("name", JSON.str "Misty"), ("age", JSON.num 12)])
      (by decide)⟩

/-- C2, as stated, fails.  A valid body is answered with 400 and the driver's message
when the insert reports an error. -/
theorem createTrainer_valid_body_not_always_ok :
    (createTrainer
        (.json (.obj [("name", .str "Ash"), ("age", .num 10), ("city", .str "Pallet Town")]))
        [] (some "server selection timeout")).1 =
      ⟨400, .obj [("code", .num 400),
        ("message", .str "[MongoBD] server selection timeout")]⟩ := rfl

/-- C2, amended: for every body with exactly the members `name` (a string), `age`
(an integer that fits Go's `int`) and `city` (a string), in any order, when the
insert reports no error `createTrainer` answers 200 with code 200 and, under the
`trainer` key, the same name, age and city; the trainer's document is appended to
the collection. -/
theorem createTrainer_echoes (coll : Collection) (n c : String) (a : Int)
    (members : List (String × JSON)) (ha : fitsInt a = true)
    (hbody : members.Perm [("name", .str n), ("age", .num a), ("city", .str c)]) :
    createTrainer (.json (.obj members)) coll none =
      (⟨StatusOK, ginH [("code", .num StatusOK),
          ("trainer", .obj [("name", .str n), ("age", .num a), ("city", .str c)])]⟩,
        coll ++ [marshalDoc Trainer.fields ⟨n, a, c⟩]) := by
  rw [createTrainer_of_bind _ ⟨n, a, c⟩ coll none (bindJSON_members n c a ha members hbody)]
  simp only [marshal_trainer]

/-- C2, amended, at the body of the example scenario. -/
theorem createTrainer_echoes_witness :
    (fitsInt (10 : Int) = true ∧
      [("name", JSON.str "Ash"), ("age", JSON.num 10), ("city", JSON.str "Pallet Town")].Perm
        [("name", .str "Ash"), ("age", .num 10), ("city", .str "Pallet Town")]) ∧
    createTrainer
        (.json (.obj [("name", .str "Ash"), ("age", .num 10), ("city", .str "Pallet Town")]))
        [] none =
      (⟨StatusOK, ginH [("code", .num StatusOK),
          ("trainer",
            .obj [("name", .str "Ash"), ("age", .num 10), ("city", .str "Pallet Town")])]⟩,
        [] ++ [marshalDoc Trainer.fields ⟨"Ash", 10, "Pallet Town"⟩]) :=
  ⟨⟨by decide, List.Perm.refl _⟩,
    createTrainer_echoes [] "Ash" "Pallet Town" 10
      [("name", .str "Ash"), ("age", .num 10), ("city", .str "Pallet Town")] (by decide)
      (List.Perm.refl _)⟩

/-- C3, as stated, fails.  After a successful delete-all of a collection, GET /trainers
answers 400 when its find query reports a driver error; and when nothing fails the
value under `trainers` is JSON `null` (the nil slice), which is not the empty
array. -/
theorem deleteAll_getAllTrainers_not_empty_list :
    (deleteAll [[("name", .str "Ash"), ("age", .int32 10), ("city", .str "Pallet Town")]]
        none).response.status = 200 ∧
      getAllTrainers
          (deleteAll [[("name", .str "Ash"), ("age", .int32 10), ("city", .str "Pallet Town")]]
            none).coll (some "connection reset") none =
        .response ⟨400, .obj [("code", .num 400),
          ("message", .str "[MongoBD] connection reset")]⟩ ∧
      getAllTrainers
          (deleteAll [[("name", .str "Ash"), ("age", .int32 10), ("city", .str "Pallet Town")]]
            none).coll none none =
        .response ⟨200, .obj [("code", .num 200), ("trainers", .null)]⟩ ∧
      JSON.null ≠ JSON.arr [] := by
  refine ⟨rfl, rfl, rfl, ?_⟩
  simp

/-- C3, amended: for every collection, after a delete-all that reports no error the
collection is empty, and a GET /trainers served next whose find query and cursor
report no error answers 200 with code 200; its result slice is nil, with no
trainer in it, and the value under `trainers` is JSON `null`. -/
theorem deleteAll_then_getAllTrainers (coll : Collection) :
    (deleteAll coll none).response.status = StatusOK ∧
      (deleteAll coll none).coll = [] ∧
      cursorLoop (deleteAll coll none).coll [] none = .ok ([], none) ∧
      getAllTrainers (deleteAll coll none).coll none none =
        .response ⟨StatusOK, ginH [("code", .num StatusOK), ("trainers", .null)]⟩ :=
  ⟨rfl, rfl, rfl, rfl⟩

/-- C4: for every collection, every name parameter (the empty string included) that
the name filter matches in no document, and whatever the driver reports for the
query, `getTrainerByName` answers 400 with the error envelope: code 400 and the
message of the driver error, or of `ErrNoDocuments` when the query itself succeeds.
The body has no `trainer` key. -/
theorem getTrainerByName_no_match (coll : Collection) (tName : String)
    (queryErr : Option String)
    (hno : ∀ d ∈ coll, matchesFilter "name" tName d = false) :
    getTrainerByName tName coll queryErr =
        ⟨StatusBadRequest, ginH [("code", .num StatusBadRequest),
          ("message", .str ("[MongoBD] " ++ queryErr.getD errNoDocuments))]⟩ ∧
      (getTrainerByName tName coll queryErr).status ≠ StatusOK ∧
      (getTrainerByName tName coll queryErr).body.keys = ["code", "message"] := by
  have h : getTrainerByName tName coll queryErr =
      ⟨StatusBadRequest, ginH [("code", .num StatusBadRequest),
        ("message", .str ("[MongoBD] " ++ queryErr.getD errNoDocuments))]⟩ := by
    cases queryErr with
    | some e => rfl
    | none =>
      simp only [getTrainerByName, Collection.findOneDecode,
        find_of_no_match coll _ hno, mongoError, Option.getD]
  rw [h]
  exact ⟨rfl, by simp [StatusBadRequest, StatusOK], rfl⟩

/-- C4 at a concrete input: the empty name on a collection that holds Ash. -/
theorem getTrainerByName_no_match_witness :
    (∀ d ∈ ([[("name", .str "Ash"), ("age", .int32 10), ("city", .str "Pallet Town")]] :
        Collection), matchesFilter "name" "" d = false) ∧
    (getTrainerByName ""
        [[("name", .str "Ash"), ("age", .int32 10), ("city", .str "Pallet Town")]] none =
        ⟨StatusBadRequest, ginH [("code", .num StatusBadRequest),
          ("message", .str ("[MongoBD] " ++ (none : Option String).getD errNoDocuments))]⟩ ∧
      (getTrainerByName ""
        [[("name", .str "Ash"), ("age", .int32 10), ("city", .str "Pallet Town")]] none).status
        ≠ StatusOK ∧
      (getTrainerByName ""
        [[("name", .str "Ash"), ("age", .int32 10), ("city", .str "Pallet Town")]]
        none).body.keys = ["code", "message"]) :=
  ⟨by decide,
    getTrainerByName_no_match
      [[("name", .str "Ash"), ("age", .int32 10), ("city", .str "Pallet Town")]] "" none
      (by decide)⟩

/-- C5: for every request whose body is missing (no bytes), does not begin with a
JSON value, holds a JSON value that is neither an object nor `null` (followed by
further bytes or not), or fails to bind into a `Trainer` in any other way,
`createTrainer` answers 400 with the body `{"code": 400, "message": "binding json
error"}`, whatever the body was, whatever the collection holds and whatever the
driver would report, and leaves the collection as it is. -/
theorem createTrainer_binding_error (body : Payload) (coll : Collection)
    (insertErr : Option String)
    (hbind : body = .empty ∨ body = .invalid ∨
      (∃ v, (body = .json v ∨ body = .trailing v) ∧ notStruct v = true) ∨
      (bindJSON body).2 ≠ none) :
    createTrainer body coll insertErr =
      (⟨400, .obj [("code", .num 400), ("message", .str "binding json error")]⟩, coll) := by
  have herr : (bindJSON body).2 ≠ none := by
    rcases hbind with rfl | rfl | ⟨v, hv, hns⟩ | h
    · simp [bindJSON, decode]
    · simp [bindJSON, decode]
    · rcases hv with rfl | rfl <;> cases v <;>
        simp_all [bindJSON, decode, unmarshalValue, notStruct]
    · exact h
  unfold createTrainer
  rcases hb : bindJSON body with ⟨t, _ | e⟩
  · rw [hb] at herr
    exact absurd rfl herr
  · rfl

/-- C5 at a concrete input: a body whose `age` is a string. -/
theorem createTrainer_binding_error_witness :
    ((Payload.json
          (.obj [("name", .str "Ash"), ("age", .str "ten"), ("city", .str "Pallet Town")]) =
        .empty ∨
      Payload.json
          (.obj [("name", .str "Ash"), ("age", .str "ten"), ("city", .str "Pallet Town")]) =
        .invalid ∨
      (∃ v, (Payload.json
            (.obj [("name", .str "Ash"), ("age", .str "ten"), ("city", .str "Pallet Town")]) =
            .json v ∨
          Payload.json
            (.obj [("name", .str "Ash"), ("age", .str "ten"), ("city", .str "Pallet Town")]) =
            .trailing v) ∧ notStruct v = true) ∨
      (bindJSON
        (.json (.obj [("name", .str "Ash"), ("age", .str "ten"), ("city", .str "Pallet Town")]))).2
        ≠ none)) ∧
    createTrainer
        (.json (.obj [("name", .str "Ash"), ("age", .str "ten"), ("city", .str "Pallet Town")]))
        [[("name", .str "Misty"), ("age", .int32 12), ("city", .str "Cerulean City")]] none =
      (⟨400, .obj [("code", .num 400), ("message", .str "binding json error")]⟩,
        [[("name", .str "Misty"), ("age", .int32 12), ("city", .str "Cerulean City")]]) :=
  ⟨Or.inr (Or.inr (Or.inr (by decide))),
    createTrainer_binding_error _ _ none (Or.inr (Or.inr (Or.inr (by decide))))⟩

/-- C6: for every collection and whatever the driver reports, if two delete-all
requests in a row both answer 200, then both answer with the same body `{"code":
200, "message": "all trainers deleted"}`, the collection is empty after each, the
first deletes as many documents as the collection held and the second deletes
none. -/
theorem deleteAll_twice (coll : Collection) (e1 e2 : Option String)
    (h1 : (deleteAll coll e1).response.status = 200)
    (h2 : (deleteAll (deleteAll coll e1).coll e2).response.status = 200) :
    (deleteAll coll e1).response =
        ⟨200, .obj [("code", .num 200), ("message", .str "all trainers deleted")]⟩ ∧
      (deleteAll (deleteAll coll e1).coll e2).response =
        ⟨200, .obj [("code", .num 200), ("message", .str "all trainers deleted")]⟩ ∧
      (deleteAll coll e1).coll = [] ∧
      (deleteAll (deleteAll coll e1).coll e2).coll = [] ∧
      (deleteAll coll e1).printed = some coll.length ∧
      (deleteAll (deleteAll coll e1).coll e2).printed = some 0 := by
  cases e1 with
  | some e =>
    simp [deleteAll, Collection.deleteMany, mongoError, StatusBadRequest] at h1
  | none =>
    cases e2 with
    | some e =>
      simp [deleteAll, Collection.deleteMany, mongoError, StatusBadRequest] at h2
    | none => exact ⟨rfl, rfl, rfl, rfl, rfl, rfl⟩

/-- C6 at a concrete input: a collection of two documents is deleted twice. -/
theorem deleteAll_twice_witness :
    ((deleteAll
        [[("name", .str "Ash"), ("age", .int32 10), ("city", .str "Pallet Town")],
          [("name", .str "Misty"), ("age", .int32 12), ("city", .str "Cerulean City")]]
        none).response.status = 200 ∧
      (deleteAll
        (deleteAll
          [[("name", .str "Ash"), ("age", .int32 10), ("city", .str "Pallet Town")],
            [("name", .str "Misty"), ("age", .int32 12), ("city", .str "Cerulean City")]]
          none).coll none).response.status = 200) ∧
    ((deleteAll
        [[("name", .str "Ash"), ("age", .int32 10), ("city", .str "Pallet Town")],
          [("name", .str "Misty"), ("age", .int32 12), ("city", .str "Cerulean City")]]
        none).response =
        ⟨200, .obj [("code", .num 200), ("message", .str "all trainers deleted")]⟩ ∧
      (deleteAll
        (deleteAll
          [[("name", .str "Ash"), ("age", .int32 10), ("city", .str "Pallet Town")],
            [("name", .str "Misty"), ("age", .int32 12), ("city", .str "Cerulean City")]]
          none).coll none).response =
        ⟨200, .obj [("code", .num 200), ("message", .str "all trainers deleted")]⟩ ∧
      (deleteAll
        [[("name", .str "Ash"), ("age", .int32 10), ("city", .str "Pallet Town")],
          [("name", .str "Misty"), ("age", .int32 12), ("city", .str "Cerulean City")]]
        none).coll = [] ∧
      (deleteAll
        (deleteAll
          [[("name", .str "Ash"), ("age", .int32 10), ("city", .str "Pallet Town")],
            [("name", .str "Misty"), ("age", .int32 12), ("city", .str "Cerulean City")]]
          none).coll none).coll = [] ∧
      (deleteAll
        [[("name", .str "Ash"), ("age", .int32 10), ("city", .str "Pallet Town")],
          [("name", .str "Misty"), ("age", .int32 12), ("city", .str "Cerulean City")]]
        none).printed =
        some ([[("name", .str "Ash"), ("age", .int32 10), ("city", .str "Pallet Town")],
          [("name", .str "Misty"), ("age", .int32 12), ("city", .str "Cerulean City")]] :
          Collection).length ∧
      (deleteAll
        (deleteAll
          [[("name", .str "Ash"), ("age", .int32 10), ("city", .str "Pallet Town")],
            [("name", .str "Misty"), ("age", .int32 12), ("city", .str "Cerulean City")]]
          none).coll none).printed = some 0) :=
  ⟨⟨rfl, rfl⟩,
    deleteAll_twice
      [[("name", .str "Ash"), ("age", .int32 10), ("city", .str "Pallet Town")],
        [("name", .str "Misty"), ("age", .int32 12), ("city", .str "Cerulean City")]]
      none none rfl rfl⟩

/-- C7 fails in the cursor-error branch of `getAllTrainers`: whenever the handler
answers a cursor error, the status is 400 but the keys of the envelope are `CODE`
and `message`; there is no key `code`.  The other error branches use `code`. -/
theorem getAllTrainers_cursor_error_envelope (coll : Collection) (k : Nat) (e : String)
    (r : Response) (h : getAllTrainers coll none (some (k, e)) = .response r) :
    r.status = StatusBadRequest ∧ r.body.keys = ["CODE", "message"] ∧
      r.body.field "code" = none ∧
      r.body.field "CODE" = some (.num StatusBadRequest) := by
  simp only [getAllTrainers, Collection.find] at h
  cases hloop : cursorLoop (List.take k coll) [] none with
  | error msg => simp [hloop] at h
  | ok st =>
    simp only [hloop] at h
    injection h with h
    subst h
    exact ⟨rfl, rfl, rfl, rfl⟩

/-- C7 at a concrete input: the cursor fails after delivering the one stored
document. -/
theorem getAllTrainers_cursor_error_envelope_witness :
    getAllTrainers [[("name", .str "Ash"), ("age", .int32 10), ("city", .str "Pallet Town")]]
        none (some (1, "cursor killed")) =
        .response
          ⟨400, .obj [("CODE", .num 400), ("message", .str "[MongoBD] cursor killed")]⟩ ∧
    ((⟨400, .obj [("CODE", .num 400), ("message", .str "[MongoBD] cursor killed")]⟩ :
        Response).status = StatusBadRequest ∧
      (⟨400, .obj [("CODE", .num 400), ("message", .str "[MongoBD] cursor killed")]⟩ :
        Response).body.keys = ["CODE", "message"] ∧
      (⟨400, .obj [("CODE", .num 400), ("message", .str "[MongoBD] cursor killed")]⟩ :
        Response).body.field "code" = none ∧
      (⟨400, .obj [("CODE", .num 400), ("message", .str "[MongoBD] cursor killed")]⟩ :
        Response).body.field "CODE" = some (.num StatusBadRequest)) :=
  ⟨rfl,
    getAllTrainers_cursor_error_envelope
      [[("name", .str "Ash"), ("age", .int32 10), ("city", .str "Pallet Town")]] 1
      "cursor killed" _ rfl⟩

/-- C8: for every trainer whose age is a Go `int`, the JSON encoding is the object
with exactly the members `name`, `age`, `city`, in this order, carrying `t.Name`,
`t.Age`, `t.City`, and decoding it into any trainer gives `t` back without an
error. -/
theorem trainer_json_roundtrip (s t : Trainer) (hage : fitsInt t.Age = true) :
    marshal Trainer.fields t =
        .obj [("name", .str t.Name), ("age", .num t.Age), ("city", .str t.City)] ∧
      (marshal Trainer.fields t).keys = ["name", "age", "city"] ∧
      unmarshal Trainer.fields s (.json (marshal Trainer.fields t)) = (t, none) := by
  refine ⟨rfl, rfl, ?_⟩
  rw [marshal_trainer]
  exact unmarshal_trainer_members s t.Name t.City t.Age hage _ (List.Perm.refl _)

/-- C8 at a concrete trainer. -/
theorem trainer_json_roundtrip_witness :
    fitsInt (10 : Int) = true ∧
    (marshal Trainer.fields ⟨"Ash", 10, "Pallet Town"⟩ =
        .obj [("name", .str "Ash"), ("age", .num 10), ("city", .str "Pallet Town")] ∧
      (marshal Trainer.fields ⟨"Ash", 10, "Pallet Town"⟩).keys = ["name", "age", "city"] ∧
      unmarshal Trainer.fields Trainer.zero
        (.json (marshal Trainer.fields ⟨"Ash", 10, "Pallet Town"⟩)) =
        (⟨"Ash", 10, "Pallet Town"⟩, none)) :=
  ⟨by decide, trainer_json_roundtrip Trainer.zero ⟨"Ash", 10, "Pallet Town"⟩ (by decide)⟩

/-- C9: for every configuration file that can be read and holds a JSON object with
exactly the string members `user` = u, `password` = p, `host` = h, in any order,
`initMongo` decodes it into `Credential{User: u, Password: p, Host: h}` and hands
the URI `mongodb+srv://u:p@h` to the driver.  The member `user` reaches `User`
although the tag of that field is malformed: the field keeps its Go name, which
the key matches case-insensitively. -/
theorem initMongo_uri (u p h : String) (members : List (String × JSON))
    (connect : String → Option String) (ping : Option String)
    (hfile : members.Perm [("user", .str u), ("password", .str p), ("host", .str h)]) :
    loadCredential (.json (.obj members)) = ⟨u, p, h⟩ ∧
      jsonKey Credential.userField = some "User" ∧
      initMongo (.ok (.json (.obj members))) connect ping =
        connectAndPing ("mongodb+srv://" ++ u ++ ":" ++ p ++ "@" ++ h) connect ping := by
  have hc : loadCredential (.json (.obj members)) = ⟨u, p, h⟩ := by
    simp only [loadCredential, unmarshal,
      unmarshal_credential_members Credential.zero u p h members hfile]
  refine ⟨hc, rfl, ?_⟩
  simp only [initMongo, hc, mongoURI]

/-- C9 at a concrete file, with a driver that connects and answers the ping. -/
theorem initMongo_uri_witness :
    [("host", JSON.str "cluster0.example.net"), ("user", JSON.str "ash"),
        ("password", JSON.str "pikachu")].Perm
      [("user", .str "ash"), ("password", .str "pikachu"), ("host", .str "cluster0.example.net")] ∧
    (loadCredential
        (.json (.obj [("host", .str "cluster0.example.net"), ("user", .str "ash"),
          ("password", .str "pikachu")])) = ⟨"ash", "pikachu", "cluster0.example.net"⟩ ∧
      jsonKey Credential.userField = some "User" ∧
      initMongo
        (.ok (.json (.obj [("host", .str "cluster0.example.net"), ("user", .str "ash"),
          ("password", .str "pikachu")]))) (fun _ => none) none =
        connectAndPing
          ("mongodb+srv://" ++ "ash" ++ ":" ++ "pikachu" ++ "@" ++ "cluster0.example.net")
          (fun _ => none) none) :=
  ⟨@List.perm_append_comm _ [("host", JSON.str "cluster0.example.net")]
      [("user", JSON.str "ash"), ("password", JSON.str "pikachu")],
    initMongo_uri "ash" "pikachu" "cluster0.example.net"
      [("host", .str "cluster0.example.net"), ("user", .str "ash"),
        ("password", .str "pikachu")]
      (fun _ => none) none
      (@List.perm_append_comm _ [("host", JSON.str "cluster0.example.net")]
        [("user", JSON.str "ash"), ("password", JSON.str "pikachu")])⟩

/-- C10, as stated, fails on the empty collection: the find query succeeds, there is
no document that could fail to decode, the cursor reports no error, and the value
under `trainers` is JSON `null`, not a sequence. -/
theorem getAllTrainers_empty_is_null :
    getAllTrainers [] none none =
        .response ⟨200, .obj [("code", .num 200), ("trainers", .null)]⟩ ∧
      JSON.null ≠ JSON.arr ([].map (marshal Trainer.fields)) := by
  refine ⟨rfl, ?_⟩
  simp

/-- C10, amended: for every collection whose find query succeeds, whose documents all
decode (`ts` lists the decoded trainers, one per document, in order) and whose
cursor reports no error, the loop of `getAllTrainers` allocates one cell per
document and collects their distinct addresses `0, 1, ...` in order, and the
handler answers 200 with code 200 and, under `trainers`, the array of the encoded
trainers `ts` when the collection is not empty and JSON `null` when it is. -/
theorem getAllTrainers_lists_all (coll : Collection) (ts : List Trainer)
    (hdec : List.Forall₂
      (fun d t => decodeDoc Trainer.fields Trainer.zero d = .ok t) coll ts) :
    cursorLoop coll [] none =
        .ok (ts, if ts = [] then none else some (List.range' 0 ts.length)) ∧
      getAllTrainers coll none none =
        .response ⟨StatusOK, ginH [("code", .num StatusOK),
          ("trainers",
            if ts = [] then .null else .arr (ts.map (marshal Trainer.fields)))]⟩ := by
  have hloop := cursorLoop_ok coll ts [] none hdec
  simp only [List.length_nil, List.nil_append] at hloop
  constructor
  · rw [hloop, foldl_goAppend_none]
    cases ts <;> simp
  · simp only [getAllTrainers, Collection.find, hloop, marshalPointers_range]
    cases ts <;> simp

/-- C10, amended, at a collection of two documents. -/
theorem getAllTrainers_lists_all_witness :
    List.Forall₂ (fun d t => decodeDoc Trainer.fields Trainer.zero d = .ok t)
      [[("name", .str "Ash"), ("age", .int32 10), ("city", .str "Pallet Town")],
        [("name", .str "Misty"), ("age", .int32 12), ("city", .str "Cerulean City")]]
      [⟨"Ash", 10, "Pallet Town"⟩, ⟨"Misty", 12, "Cerulean City"⟩] ∧
    (cursorLoop
        [[("name", .str "Ash"), ("age", .int32 10), ("city", .str "Pallet Town")],
          [("name", .str "Misty"), ("age", .int32 12), ("city", .str "Cerulean City")]]
        [] none =
        .ok ([⟨"Ash", 10, "Pallet Town"⟩, ⟨"Misty", 12, "Cerulean City"⟩],
          if [(⟨"Ash", 10, "Pallet Town"⟩ : Trainer), ⟨"Misty", 12, "Cerulean City"⟩] = []
          then none
          else some (List.range' 0
            [(⟨"Ash", 10, "Pallet Town"⟩ : Trainer), ⟨"Misty", 12, "Cerulean City"⟩].length)) ∧
      getAllTrainers
        [[("name", .str "Ash"), ("age", .int32 10), ("city", .str "Pallet Town")],
          [("name", .str "Misty"), ("age", .int32 12), ("city", .str "Cerulean City")]]
        none none =
        .response ⟨StatusOK, ginH [("code", .num StatusOK),
          ("trainers",
            if [(⟨"Ash", 10, "Pallet Town"⟩ : Trainer), ⟨"Misty", 12, "Cerulean City"⟩] = []
            then .null
            else
              .arr ([(⟨"Ash", 10, "Pallet Town"⟩ : Trainer),
                ⟨"Misty", 12, "Cerulean City"⟩].map (marshal Trainer.fields)))]⟩) :=
  ⟨List.Forall₂.cons rfl (List.Forall₂.cons rfl List.Forall₂.nil),
    getAllTrainers_lists_all
      [[("name", .str "Ash"), ("age", .int32 10), ("city", .str "Pallet Town")],
        [("name", .str "Misty"), ("age", .int32 12), ("city", .str "Cerulean City")]]
      [⟨"Ash", 10, "Pallet Town"⟩, ⟨"Misty", 12, "Cerulean City"⟩]
      (List.Forall₂.cons rfl (List.Forall₂.cons rfl List.Forall₂.nil))⟩

end GinMongo
